import Mathlib

/-!
Verification development for the LegacyLens scan-orchestration core.

The definitions below are a shallow embedding of the TypeScript sources:
`lib/utils/scoring.ts`, `lib/agent/state.ts`, `lib/agent/graph.ts`,
`lib/agent/nodes.ts`, `lib/storage/scans.ts`, the scan-submission route
(`POST /api/scan`) and the SSE streaming route
(`GET /api/scan/[id]/stream`).  External services (GitHub metadata,
detectors, the enricher) are modelled as parameters; machine integers
are `Nat`; JavaScript `undefined`-able fields are `Option`; thrown
exceptions are `Except` or `Option` results.
-/

namespace LegacyLens

/-! ## Data model (`types/index.ts`) -/

/-- Model of `Severity` from `types`: `'critical' | 'high' | 'medium' | 'low'`. -/
inductive Severity where
  | critical
  | high
  | medium
  | low
deriving DecidableEq, Repr

/-- Model of `ETA` from `types`: `'easy' | 'medium' | 'large'`. -/
inductive ETA where
  | easy
  | medium
  | large
deriving DecidableEq, Repr

/-- Model of `Category` from `types`. -/
inductive Category where
  | security
  | reliability
  | maintainability
  | dependencies
deriving DecidableEq, Repr

/-- Model of `Phase` from `types`: `'plan' | 'hunt' | 'explain' | 'write'`. -/
inductive Phase where
  | plan
  | hunt
  | explain
  | write
deriving DecidableEq, Repr

/-- Model of `ScanStatus` from `types`: `'scanning' | 'completed' | 'failed'`. -/
inductive ScanStatus where
  | scanning
  | completed
  | failed
deriving DecidableEq, Repr

/-- One entry of `ScanResult.logs`: `{timestamp, phase, message}`. -/
structure LogEntry where
  timestamp : Nat
  phase : Phase
  message : String
deriving DecidableEq, Repr

/-- A raw finding as produced by the detectors (element of `AgentState.findings`). -/
structure RawFinding where
  ruleId : String
  category : Category
  file : String
  line : Nat
  snippet : String
deriving DecidableEq, Repr

/-- The four-horizon timeline object `{t3m, t6m, t1y, t2y}`. -/
structure Timeline where
  t3m : String
  t6m : String
  t1y : String
  t2y : String
deriving DecidableEq, Repr

/-- An enriched `Finding` from `types`. -/
structure Finding where
  id : String
  ruleId : String
  category : Category
  severity : Severity
  eta : ETA
  file : String
  line : Nat
  snippet : String
  title : String
  explanation : String
  fix : String
  timeline : Timeline
  minutesSaved : Nat
deriving DecidableEq, Repr

/-- Model of `ScanResult.stats` from `types`. -/
structure ScanStats where
  totalFiles : Nat
  totalLines : Nat
  languages : List String
  frameworks : List String
  criticalCount : Nat
  highCount : Nat
  mediumCount : Nat
  lowCount : Nat
  totalMinutes : Nat
deriving DecidableEq, Repr

/-- The persisted `ScanResult` record from `types`. -/
structure ScanResult where
  id : String
  repoUrl : String
  status : ScanStatus
  findings : List Finding
  stats : ScanStats
  logs : List LogEntry
  createdAt : Nat
deriving DecidableEq, Repr

/-- Model of `AgentState.repoMetadata` shape. -/
structure RepoMetadata where
  languages : List String
  frameworks : List String
  totalFiles : Nat
  totalLines : Nat
deriving DecidableEq, Repr

/-! ## Scoring (`lib/utils/scoring.ts`) -/

/-- The fixed `SEVERITY_MAP` lookup table keyed by rule id. -/
def SEVERITY_MAP : List (String × Severity) :=
  [("hardcoded-secrets", Severity.critical),
   ("hardcoded-credentials", Severity.critical),
   ("sql-injection", Severity.critical),
   ("eval-usage", Severity.high),
   ("exposed-env", Severity.high),
   ("no-validation", Severity.high),
   ("no-http-timeout", Severity.medium),
   ("empty-catch", Severity.medium),
   ("unhandled-promise", Severity.medium),
   ("god-file", Severity.low),
   ("long-function", Severity.low),
   ("magic-numbers", Severity.low),
   ("todo-clusters", Severity.low)]

/-- Model of `calculateSeverity(ruleId)`: `SEVERITY_MAP[ruleId] || 'medium'`. -/
def calculateSeverity (ruleId : String) : Severity :=
  ((SEVERITY_MAP.find? (fun p => decide (p.1 = ruleId))).map (fun p => p.2)).getD Severity.medium

/-- Model of `easyRules` from `calculateETA`. -/
def easyRules : List String :=
  ["hardcoded-secrets", "exposed-env", "magic-numbers", "empty-catch", "no-http-timeout"]

/-- Model of `largeRules` from `calculateETA`. -/
def largeRules : List String :=
  ["god-file", "long-function", "sql-injection", "no-validation"]

/-- Model of `calculateETA(ruleId, snippet)`. -/
def calculateETA (ruleId snippet : String) : ETA :=
  if easyRules.contains ruleId then ETA.easy
  else if largeRules.contains ruleId then ETA.large
  else if snippet.length > 300 then ETA.large
  else if snippet.length > 150 then ETA.medium
  else ETA.medium

/-- The `triageTime` table inside `calculateMinutesSaved`. -/
def triageTime : Severity → Nat
  | Severity.critical => 15
  | Severity.high => 12
  | Severity.medium => 7
  | Severity.low => 3

/-- The `documentationTime` constant inside `calculateMinutesSaved`. -/
def documentationTime : Nat := 2

/-- Model of `calculateMinutesSaved(severity, eta)`: `triageTime[severity] + documentationTime`.
The `eta` argument is received but never read, mirroring the source signature. -/
def calculateMinutesSaved (severity : Severity) (_eta : ETA) : Nat :=
  triageTime severity + documentationTime

/-! ## Agent state and merge semantics (`lib/agent/state.ts`, `lib/agent/graph.ts`) -/

/-- The in-flight `AgentState` threaded through the four phases.
Optional JS fields (`repoMetadata?`, `error?`) are `Option`. -/
structure AgentState where
  scanId : String
  repoUrl : String
  repoMetadata : Option RepoMetadata
  findings : List RawFinding
  enrichedFindings : List Finding
  logs : List LogEntry
  error : Option String
deriving DecidableEq, Repr

/-- A `Partial<AgentState>` node output: a field that the update does not
supply is `none`. -/
structure AgentUpdate where
  scanId : Option String := none
  repoUrl : Option String := none
  repoMetadata : Option RepoMetadata := none
  findings : Option (List RawFinding) := none
  enrichedFindings : Option (List Finding) := none
  logs : Option (List LogEntry) := none
  error : Option String := none
deriving DecidableEq, Repr

/-- The channel reducers of `agentStateChannels` (`lib/agent/state.ts`):
`logs` uses `[...x, ...(y || [])]` (append); every other channel uses
`y ?? x` (replace when the update supplies a value, else keep). -/
def mergeState (x : AgentState) (y : AgentUpdate) : AgentState where
  scanId := y.scanId.getD x.scanId
  repoUrl := y.repoUrl.getD x.repoUrl
  repoMetadata := match y.repoMetadata with
    | some m => some m
    | none => x.repoMetadata
  findings := y.findings.getD x.findings
  enrichedFindings := y.enrichedFindings.getD x.enrichedFindings
  logs := x.logs ++ y.logs.getD []
  error := match y.error with
    | some e => some e
    | none => x.error

/-- The merge step of `runAgent`'s stream loop (`lib/agent/graph.ts`):
`finalState = { ...finalState, ...nodeOutput, logs: mergedLogs }` with
`mergedLogs = [...finalState.logs, ...(nodeOutput.logs || [])]`. -/
def runAgentMergeStep (finalState : AgentState) (nodeOutput : AgentUpdate) : AgentState where
  scanId := nodeOutput.scanId.getD finalState.scanId
  repoUrl := nodeOutput.repoUrl.getD finalState.repoUrl
  repoMetadata := match nodeOutput.repoMetadata with
    | some m => some m
    | none => finalState.repoMetadata
  findings := nodeOutput.findings.getD finalState.findings
  enrichedFindings := nodeOutput.enrichedFindings.getD finalState.enrichedFindings
  logs := finalState.logs ++ nodeOutput.logs.getD []
  error := match nodeOutput.error with
    | some e => some e
    | none => finalState.error

/-! ## Workflow nodes (`lib/agent/nodes.ts`)

Each node is modelled as a pure function from the incoming state (plus the
outcomes of its external calls, passed as parameters) to the partial update
it returns.  `Date.now()` is modelled by a `now : Nat` parameter; the
best-effort write-through of `addLog` to the store is modelled separately by
`saveLogImmediately` below. -/

/-- Model of `createLog(phase, message)` / the object literal built by `addLog`. -/
def createLog (now : Nat) (phase : Phase) (message : String) : LogEntry where
  timestamp := now
  phase := phase
  message := message

/-- Model of `metadata.languages.join(', ') || 'Unknown'` -/
def joinLanguages (languages : List String) : String :=
  let j := String.intercalate ", " languages
  if j = "" then "Unknown" else j

/-- Model of `metadata.frameworks.join(', ') || 'None detected'` -/
def joinFrameworks (frameworks : List String) : String :=
  let j := String.intercalate ", " frameworks
  if j = "" then "None detected" else j

/-- Model of `planNode`: on success of `getRepoMetadata` it returns five plan logs
plus `repoMetadata`; on a thrown error it returns `{ error, logs: [errorLog] }`
(the logs accumulated before the throw are discarded from the returned
update by the `catch` block). -/
def planNode (now : Nat) (metadataRes : Except String RepoMetadata)
    (_state : AgentState) : AgentUpdate :=
  match metadataRes with
  | Except.error msg =>
      { error := some msg
        logs := some [createLog now Phase.plan ("Error: " ++ msg)] }
  | Except.ok metadata =>
      let langs := joinLanguages metadata.languages
      let frameworks := joinFrameworks metadata.frameworks
      { repoMetadata := some metadata
        logs := some
          [createLog now Phase.plan "Initializing agent...",
           createLog now Phase.plan "Connecting to repository...",
           createLog now Phase.plan "Analyzing codebase structure...",
           createLog now Phase.plan
             ("Detected: " ++ langs ++
              (if frameworks ≠ "None detected" then ", " ++ frameworks else "")),
           createLog now Phase.plan
             ("Files: " ++ toString metadata.totalFiles ++
              " | Strategy: Security → Reliability → Maintainability")] }

/-- The external inputs of `huntNode`: the `USE_GREPTILE` mode string and the
outcome of each detector strategy.  `greptileCbLogs` / `hybridCbLogs` are the
log entries the strategy pushed through its `logCallback` before returning or
throwing. -/
structure HuntEnv where
  mode : String
  greptileCbLogs : List LogEntry
  greptileRes : Except String (List RawFinding)
  hybridCbLogs : List LogEntry
  hybridRes : Except String (List RawFinding)
  patternRes : Except String (List RawFinding)

/-- The strategy-selection part of `huntNode`: which logs are accumulated and
which findings are produced, or the error that escapes to the outer `catch`. -/
def huntBranch (now : Nat) (env : HuntEnv) : Except String (List LogEntry × List RawFinding) :=
  let mode := (env.mode.toLower).trim
  if mode = "true" then
    match env.greptileRes with
    | Except.ok fs => Except.ok (env.greptileCbLogs, fs)
    | Except.error _ =>
        match env.patternRes with
        | Except.ok fs =>
            Except.ok (env.greptileCbLogs ++
              [createLog now Phase.hunt "⚠️  AI analysis failed, using pattern matching..."], fs)
        | Except.error e => Except.error e
  else if mode = "hybrid" then
    match env.hybridRes with
    | Except.ok fs => Except.ok (env.hybridCbLogs, fs)
    | Except.error _ =>
        match env.patternRes with
        | Except.ok fs =>
            Except.ok (env.hybridCbLogs ++
              [createLog now Phase.hunt "⚠️  Hybrid scan failed, using pattern matching..."], fs)
        | Except.error e => Except.error e
  else
    match env.patternRes with
    | Except.ok fs =>
        Except.ok ([createLog now Phase.hunt "⚡ Running pattern-based scan (15-20s)...",
                    createLog now Phase.hunt "✓ Pattern scan complete"], fs)
    | Except.error e => Except.error e

/-- The per-category result logs at the end of `huntNode`'s `try` block. -/
def huntCategoryLogs (now : Nat) (findings : List RawFinding) : List LogEntry :=
  let securityCount := (findings.filter (fun f => decide (f.category = Category.security))).length
  let reliabilityCount := (findings.filter (fun f => decide (f.category = Category.reliability))).length
  let maintainabilityCount := (findings.filter (fun f => decide (f.category = Category.maintainability))).length
  let dependenciesCount := (findings.filter (fun f => decide (f.category = Category.dependencies))).length
  [createLog now Phase.hunt ("✓ Security: " ++ toString securityCount ++ " issues"),
   createLog now Phase.hunt ("✓ Reliability: " ++ toString reliabilityCount ++ " issues"),
   createLog now Phase.hunt ("✓ Maintainability: " ++ toString maintainabilityCount ++ " issues")] ++
  (if dependenciesCount > 0 then
    [createLog now Phase.hunt ("✓ Dependencies: " ++ toString dependenciesCount ++ " issues")]
  else [])

/-- Model of `huntNode`: skipped (empty update) when `state.error` is set; otherwise
runs the selected detection strategy with fallback, logs the per-category
breakdown and returns the findings; a strategy error that even the fallback
cannot absorb reaches the outer `catch`, which returns only the error and a
single error log. -/
def huntNode (now : Nat) (env : HuntEnv) (state : AgentState) : AgentUpdate :=
  if state.error.isSome then {} else
  match huntBranch now env with
  | Except.error e =>
      { error := some e
        logs := some [createLog now Phase.hunt ("Error: " ++ e)] }
  | Except.ok (branchLogs, findings) =>
      { findings := some findings
        logs := some ([createLog now Phase.hunt "Agent: Hunting for issues..."] ++
          branchLogs ++ huntCategoryLogs now findings) }

/-- The global dash-to-space replacement applied to `ruleId` in titles. -/
def dashToSpace (s : String) : String :=
  s.map (fun c => if c = '-' then ' ' else c)

/-- Model of `explanation.split('.')[0] || fallbackTitle`. -/
def titleFromExplanation (explanation fallbackTitle : String) : String :=
  let first := (explanation.splitOn ".").headD ""
  if first = "" then fallbackTitle else first

/-- The fallback finding built in `explainNode`'s per-item `catch` block. -/
def fallbackFinding (idv : String) (finding : RawFinding) : Finding where
  id := idv
  ruleId := finding.ruleId
  category := finding.category
  severity := calculateSeverity finding.ruleId
  eta := ETA.medium
  file := finding.file
  line := finding.line
  snippet := finding.snippet
  title := dashToSpace finding.ruleId ++ " in " ++ finding.file
  explanation := "Unable to generate explanation"
  fix := "// Fix could not be generated"
  timeline := { t3m := "Issue detected", t6m := "Problem persists",
                t1y := "Refactor needed", t2y := "Technical debt grows" }
  minutesSaved := 10

/-- Enrichment of one finding in `explainNode`: `Promise.all` of
`generateTimeline` / `generateExplanation` / `generateFix` (a `none` from any
of the three models a thrown rejection), then local severity / eta /
minutesSaved; on rejection, the per-item `catch` yields `fallbackFinding`. -/
def enrichOne (genT : RawFinding → Option Timeline)
    (genE : RawFinding → Option String) (genF : RawFinding → Option String)
    (idv : String) (finding : RawFinding) : Finding :=
  match genT finding, genE finding, genF finding with
  | some timeline, some explanation, some fix =>
      let severity := calculateSeverity finding.ruleId
      let eta := calculateETA finding.ruleId finding.snippet
      { id := idv
        ruleId := finding.ruleId
        category := finding.category
        severity := severity
        eta := eta
        file := finding.file
        line := finding.line
        snippet := finding.snippet
        title := titleFromExplanation explanation (dashToSpace finding.ruleId)
        explanation := explanation
        fix := fix
        timeline := timeline
        minutesSaved := calculateMinutesSaved severity eta }
  | _, _, _ => fallbackFinding idv finding

/-- The enrichment call of any one of the three generators fails
(models a rejected promise inside the per-item `Promise.all`). -/
def enrichFails (genT : RawFinding → Option Timeline)
    (genE : RawFinding → Option String) (genF : RawFinding → Option String)
    (finding : RawFinding) : Prop :=
  genT finding = none ∨ genE finding = none ∨ genF finding = none

instance (genT : RawFinding → Option Timeline) (genE genF : RawFinding → Option String)
    (finding : RawFinding) : Decidable (enrichFails genT genE genF finding) := by
  unfold enrichFails
  infer_instance

/-- Position-indexed map (each item at global position `i` receives the id
`ids i`, modelling the fresh `uuidv4()` drawn per enrichment call). -/
def mapWithIdxFrom (en : Nat → RawFinding → Finding) : Nat → List RawFinding → List Finding
  | _, [] => []
  | i, f :: rest => en i f :: mapWithIdxFrom en (i + 1) rest

/-- The batch loop of `explainNode`: slices of 5 findings, each batch mapped
through the per-item enrichment (`Promise.all` inside one batch does not
change which list is produced), batches processed in order. -/
def enrichChunks (en : Nat → RawFinding → Finding) (i : Nat) : List RawFinding → List Finding
  | [] => []
  | f :: rest =>
      mapWithIdxFrom en i ((f :: rest).take 5) ++
        enrichChunks en (i + 5) ((f :: rest).drop 5)
termination_by l => l.length
decreasing_by
  simp only [List.drop_succ_cons, List.length_cons, List.length_drop]
  omega

/-- The per-batch progress logs of `explainNode`
(`Processing findings ${i+1}-${min(i+5, N)}...`). -/
def explainBatchLogs (now total : Nat) (i : Nat) : List RawFinding → List LogEntry
  | [] => []
  | f :: rest =>
      createLog now Phase.explain
        ("Processing findings " ++ toString (i + 1) ++ "-" ++
         toString (min (i + 5) total) ++ "...") ::
        explainBatchLogs now total (i + 5) ((f :: rest).drop 5)
termination_by l => l.length
decreasing_by
  simp only [List.drop_succ_cons, List.length_cons, List.length_drop]
  omega

/-- Model of `explainNode`: skipped (empty update) when `state.error` is set or there
are no findings; otherwise enriches all findings in batches of 5 and returns
`enrichedFindings` plus its progress logs.  Per-item failures are absorbed by
`enrichOne`, so this path never sets `error`. -/
def explainNode (now : Nat) (genT : RawFinding → Option Timeline)
    (genE : RawFinding → Option String) (genF : RawFinding → Option String)
    (ids : Nat → String) (state : AgentState) : AgentUpdate :=
  if state.error.isSome ∨ state.findings.isEmpty then {} else
  let en := fun i f => enrichOne genT genE genF (ids i) f
  { enrichedFindings := some (enrichChunks en 0 state.findings)
    logs := some
      ([createLog now Phase.explain "Agent: Generating timeline predictions...",
        createLog now Phase.explain
          ("└─ Analyzing " ++ toString state.findings.length ++ " findings...")] ++
       explainBatchLogs now state.findings.length 0 state.findings ++
       [createLog now Phase.explain "Agent: Calculating future pain impact..."]) }

/-- Model of `writeNode`: skipped (empty update) when `state.error` is set or
`enrichedFindings` is empty; otherwise returns only its three roadmap logs
(the statistics it computes are logged, not returned). -/
def writeNode (now : Nat) (state : AgentState) : AgentUpdate :=
  if state.error.isSome ∨ state.enrichedFindings.isEmpty then {} else
  { logs := some
      [createLog now Phase.write "Agent: Compiling refactor roadmap...",
       createLog now Phase.write "└─ Prioritizing by severity × effort...",
       createLog now Phase.write
         ("✓ Scan complete - Found " ++ toString state.enrichedFindings.length ++ " issues")] }

/-! ## Pipeline composition (`lib/agent/graph.ts`) -/

/-- All external inputs of one pipeline run. -/
structure PipelineEnv where
  now : Nat
  metadataRes : Except String RepoMetadata
  hunt : HuntEnv
  genT : RawFinding → Option Timeline
  genE : RawFinding → Option String
  genF : RawFinding → Option String
  ids : Nat → String

/-- The `initialState` built at the top of `runAgent`. -/
def initialAgentState (scanId repoUrl : String) : AgentState where
  scanId := scanId
  repoUrl := repoUrl
  repoMetadata := none
  findings := []
  enrichedFindings := []
  logs := []
  error := none

/-- Model of `runAgent`: plan → hunt → explain → write in order, merging each node's
partial update with `mergeState` and breaking out of the stream loop as soon
as a node output carries `error`. -/
def runAgent (env : PipelineEnv) (scanId repoUrl : String) : AgentState :=
  let s0 := initialAgentState scanId repoUrl
  let u1 := planNode env.now env.metadataRes s0
  let s1 := mergeState s0 u1
  if u1.error.isSome then s1 else
  let u2 := huntNode env.now env.hunt s1
  let s2 := mergeState s1 u2
  if u2.error.isSome then s2 else
  let u3 := explainNode env.now env.genT env.genE env.genF env.ids s2
  let s3 := mergeState s2 u3
  if u3.error.isSome then s3 else
  mergeState s3 (writeNode env.now s3)

/-! ## Record Store (`lib/storage/scans.ts`)

All operations run under `withLock`, so the store is modelled as the
in-memory record map between serialized read-modify-write cycles: an
association list from scan id to `ScanResult`. -/

/-- Structural model of `String.startsWith` (prefix test on the character
list), used for the `demo-` id checks. -/
def strStartsWith (s pre : String) : Bool :=
  pre.data.isPrefixOf s.data

/-- The record map parsed from `data/scans.json`. -/
abbrev ScanStore : Type := List (String × ScanResult)

/-- Model of `realScans[id]` lookup. -/
def lookupScan : ScanStore → String → Option ScanResult
  | [], _ => none
  | (k, r) :: rest, id => if k = id then some r else lookupScan rest id

/-- Model of `realScans[id] = r` assignment on the record map. -/
def setScan : ScanStore → String → ScanResult → ScanStore
  | [], id, r => [(id, r)]
  | (k, r0) :: rest, id, r =>
      if k = id then (k, r) :: rest else (k, r0) :: setScan rest id r

/-- A `Partial<ScanResult>` as passed to `updateScan`. -/
structure ScanUpdate where
  id : Option String := none
  repoUrl : Option String := none
  status : Option ScanStatus := none
  findings : Option (List Finding) := none
  stats : Option ScanStats := none
  logs : Option (List LogEntry) := none
  createdAt : Option Nat := none
deriving DecidableEq, Repr

/-- The shallow merge `{ ...realScans[id], ...updates }` inside `updateScan`:
every supplied top-level field replaces the stored one (including `logs`,
which is replaced wholesale, not appended), every absent field is retained. -/
def mergeScanRecord (r : ScanResult) (u : ScanUpdate) : ScanResult where
  id := u.id.getD r.id
  repoUrl := u.repoUrl.getD r.repoUrl
  status := u.status.getD r.status
  findings := u.findings.getD r.findings
  stats := u.stats.getD r.stats
  logs := u.logs.getD r.logs
  createdAt := u.createdAt.getD r.createdAt

/-- Model of `saveScan(scan)`: demo ids are never written; otherwise the record is
stored under its id, silently replacing any record already there. -/
def saveScan (scan : ScanResult) (store : ScanStore) : ScanStore :=
  if strStartsWith scan.id "demo-" then store else setScan store scan.id scan

/-- Model of `updateScan(id, updates)`: a no-op success for demo ids; a thrown
`Scan ${id} not found` when the id is absent; otherwise the shallow merge is
written back. -/
def updateScan (id : String) (updates : ScanUpdate) (store : ScanStore) :
    Except String ScanStore :=
  if strStartsWith id "demo-" then Except.ok store
  else match lookupScan store id with
    | none => Except.error ("Scan " ++ id ++ " not found")
    | some r => Except.ok (setScan store id (mergeScanRecord r updates))

/-- Model of `getScan(id)`: the demo map is consulted first, then the persisted map. -/
def getScanStore (demo : ScanStore) (store : ScanStore) (id : String) :
    Option ScanResult :=
  match lookupScan demo id with
  | some r => some r
  | none => lookupScan store id

/-- Model of `saveLogImmediately(scanId, phase, message)` from `lib/agent/nodes.ts`:
reads the current record, appends one new entry to its `logs` and calls
`updateScan`; every failure is swallowed, leaving the store unchanged. -/
def saveLogImmediately (demo : ScanStore) (store : ScanStore) (scanId : String)
    (entry : LogEntry) : ScanStore :=
  match getScanStore demo store scanId with
  | none => store
  | some scan =>
      match updateScan scanId { logs := some (scan.logs ++ [entry]) } store with
      | Except.ok store' => store'
      | Except.error _ => store

/-! ## Scan submission and background completion (`POST /api/scan`) -/

/-- The all-zero `stats` object of a freshly created scan record. -/
def zeroStats : ScanStats where
  totalFiles := 0
  totalLines := 0
  languages := []
  frameworks := []
  criticalCount := 0
  highCount := 0
  mediumCount := 0
  lowCount := 0
  totalMinutes := 0

/-- The `Scan queued, starting soon...` log entry placed in the initial
record by the submit handler. -/
def queuedLogEntry (now : Nat) : LogEntry where
  timestamp := now
  phase := Phase.plan
  message := "Scan queued, starting soon..."

/-- The `initialScan` record created by `POST /api/scan` before the pipeline
is launched. -/
def initialScanRecord (scanId repoUrl : String) (now : Nat) : ScanResult where
  id := scanId
  repoUrl := repoUrl
  status := ScanStatus.scanning
  findings := []
  stats := zeroStats
  logs := [queuedLogEntry now]
  createdAt := now

/-- The `stats` object computed by `runAgentInBackground` from the final
agent state. -/
def backgroundStats (result : AgentState) : ScanStats where
  totalFiles := (result.repoMetadata.map (fun m => m.totalFiles)).getD 0
  totalLines := (result.repoMetadata.map (fun m => m.totalLines)).getD 0
  languages := (result.repoMetadata.map (fun m => m.languages)).getD []
  frameworks := (result.repoMetadata.map (fun m => m.frameworks)).getD []
  criticalCount :=
    (result.enrichedFindings.filter (fun f => decide (f.severity = Severity.critical))).length
  highCount :=
    (result.enrichedFindings.filter (fun f => decide (f.severity = Severity.high))).length
  mediumCount :=
    (result.enrichedFindings.filter (fun f => decide (f.severity = Severity.medium))).length
  lowCount :=
    (result.enrichedFindings.filter (fun f => decide (f.severity = Severity.low))).length
  totalMinutes := (result.enrichedFindings.map (fun f => f.minutesSaved)).sum

/-- The terminal store write of `runAgentInBackground`: on a pipeline error it
writes `status: failed` and `logs: result.logs`; on success it writes
`status: completed`, `findings: result.enrichedFindings`, the computed stats
and `logs: result.logs`.  In both cases the `logs` field of the update is the
pipeline's in-memory log list, which `updateScan` merges shallowly —
replacing, not appending to, whatever the store already holds. -/
def runAgentInBackgroundFinal (store : ScanStore) (scanId : String)
    (result : AgentState) : Except String ScanStore :=
  match result.error with
  | some _ =>
      updateScan scanId { status := some ScanStatus.failed, logs := some result.logs } store
  | none =>
      updateScan scanId
        { status := some ScanStatus.completed
          findings := some result.enrichedFindings
          stats := some (backgroundStats result)
          logs := some result.logs } store

/-! ## On-disk representation (`readRealScansFromDisk`) -/

/-- A JSON value as produced by `JSON.parse`. -/
inductive Json where
  | null
  | bool (b : Bool)
  | num (n : Int)
  | str (s : String)
  | arr (elems : List Json)
  | obj (fields : List (String × Json))

/-- The state of `data/scans.json` on disk as seen by one locked read. -/
inductive DiskState where
  | missing
  | invalid (raw : String)
  | json (v : Json)

/-- Model of `fs.readFile` + `JSON.parse`: `missing` throws `ENOENT`, `invalid` throws
a parse error, otherwise the parsed value is returned. -/
def parseDisk : DiskState → Except String Json
  | DiskState.missing => Except.error "ENOENT"
  | DiskState.invalid raw => Except.error ("Unexpected token in JSON: " ++ raw)
  | DiskState.json v => Except.ok v

/-- Model of `typeof parsed === 'object' && parsed !== null && !Array.isArray(parsed)`. -/
def isPlainObject : Json → Bool
  | Json.obj _ => true
  | _ => false

/-- Model of `readRealScansFromDisk`: the `try/catch` makes the read total — a missing
file or a parse error resets the disk to an empty store and returns the empty
map, a parsed non-object likewise resets and returns empty, and a parsed
object is returned as the record map with the disk untouched.  The result is
the returned map paired with the disk state after the read. -/
def readRealScansFromDisk (d : DiskState) : Json × DiskState :=
  match parseDisk d with
  | Except.error _ => (Json.obj [], DiskState.json (Json.obj []))
  | Except.ok v =>
      if isPlainObject v then (v, d)
      else (Json.obj [], DiskState.json (Json.obj []))

/-- The on-disk representation is corrupt: missing, unparsable, or parsed to
something other than a plain object (null, array or scalar). -/
def diskCorrupt : DiskState → Prop
  | DiskState.missing => True
  | DiskState.invalid _ => True
  | DiskState.json v => isPlainObject v = false

/-! ## Progress stream (`GET /api/scan/[id]/stream`) -/

/-- One tick of the SSE poll loop's log forwarding: with `lastLogCount = n`
and the currently persisted `scan.logs`, the route emits
`scan.logs.slice(n)` when the log list has grown past `n` and advances
`lastLogCount` to its length; otherwise it emits nothing. -/
def pollEmitLogs (n : Nat) (logs : List LogEntry) : List LogEntry × Nat :=
  if n < logs.length then (logs.drop n, logs.length) else ([], n)

/-- The concatenation of all `type: 'log'` events emitted over a sequence of
observed snapshots of `scan.logs`, starting from `lastLogCount = n`. -/
def streamLogEventsFrom (n : Nat) : List (List LogEntry) → List LogEntry
  | [] => []
  | logs :: rest =>
      (pollEmitLogs n logs).1 ++ streamLogEventsFrom (pollEmitLogs n logs).2 rest

/-- All log events a subscriber receives: the route initializes
`lastLogCount = 0` at subscription time. -/
def streamLogEvents (snapshots : List (List LogEntry)) : List LogEntry :=
  streamLogEventsFrom 0 snapshots

/-- The store's log list only ever grows by appending between successive
observed snapshots. -/
def appendOnly : List (List LogEntry) → Prop
  | [] => True
  | [_] => True
  | a :: b :: rest => (∃ t, a ++ t = b) ∧ appendOnly (b :: rest)

/-! ## Shared helper lemmas -/

/-- Writing a record and reading it back at the same id yields the record. -/
theorem lookupScan_setScan_self (s : ScanStore) (id : String) (r : ScanResult) :
    lookupScan (setScan s id r) id = some r := by
  induction s with
  | nil => simp [setScan, lookupScan]
  | cons hd tl ih =>
      obtain ⟨k, r0⟩ := hd
      by_cases hk : k = id
      · simp [setScan, hk, lookupScan]
      · simp [setScan, hk, lookupScan, ih]

/-- Writing a record leaves every other id's record unchanged. -/
theorem lookupScan_setScan_ne (s : ScanStore) (id id' : String) (r : ScanResult)
    (h : id' ≠ id) : lookupScan (setScan s id r) id' = lookupScan s id' := by
  induction s with
  | nil =>
      have hne : id ≠ id' := Ne.symm h
      simp [setScan, lookupScan, hne]
  | cons hd tl ih =>
      obtain ⟨k, r0⟩ := hd
      by_cases hk : k = id
      · subst hk
        have hne : k ≠ id' := Ne.symm h
        simp [setScan, lookupScan, hne]
      · simp [setScan, hk, lookupScan, ih]

/-- Boolean prefix test on log sequences. -/
def logsArePrefix : List LogEntry → List LogEntry → Bool
  | [], _ => true
  | _ :: _, [] => false
  | a :: l, b :: s => decide (a = b) && logsArePrefix l s

/-- The test `logsArePrefix` decides the existence of an extension. -/
theorem logsArePrefix_iff (l s : List LogEntry) :
    logsArePrefix l s = true ↔ ∃ t, l ++ t = s := by
  induction l generalizing s with
  | nil => simp [logsArePrefix]
  | cons a l ih =>
      cases s with
      | nil =>
          simp [logsArePrefix]
      | cons b s =>
          simp only [logsArePrefix, Bool.and_eq_true, decide_eq_true_eq, ih,
            List.cons_append, List.cons.injEq]
          constructor
          · rintro ⟨hab, t, ht⟩
            exact ⟨t, hab, ht⟩
          · rintro ⟨t, hab, ht⟩
            exact ⟨hab, t, ht⟩

/-- The map `mapWithIdxFrom` distributes over append, shifting the index base. -/
theorem mapWithIdxFrom_append (en : Nat → RawFinding → Finding)
    (a b : List RawFinding) (i : Nat) :
    mapWithIdxFrom en i (a ++ b) =
      mapWithIdxFrom en i a ++ mapWithIdxFrom en (i + a.length) b := by
  induction a generalizing i with
  | nil => simp [mapWithIdxFrom]
  | cons f rest ih =>
      have h : i + 1 + rest.length = i + (rest.length + 1) := by omega
      simp only [List.cons_append, mapWithIdxFrom, List.cons.injEq,
        List.length_cons, List.append_eq, true_and]
      rw [ih, h]

/-- The batch loop of `explainNode` enriches each finding exactly once, in
order, at its global position: chunking into batches of 5 is just the
position-indexed map. -/
theorem enrichChunks_eq_mapWithIdxFrom (en : Nat → RawFinding → Finding) :
    ∀ (n : Nat) (l : List RawFinding), l.length ≤ n → ∀ i,
      enrichChunks en i l = mapWithIdxFrom en i l := by
  intro n
  induction n with
  | zero =>
      intro l hl i
      have hnil : l = [] := List.length_eq_zero.mp (Nat.le_zero.mp hl)
      subst hnil
      simp [enrichChunks, mapWithIdxFrom]
  | succ n ih =>
      intro l hl i
      match l with
      | [] => simp [enrichChunks, mapWithIdxFrom]
      | f :: rest =>
          rw [enrichChunks]
          rw [ih ((f :: rest).drop 5)
            (by simp only [List.length_drop, List.length_cons] at hl ⊢; omega) (i + 5)]
          by_cases h5 : (f :: rest).length ≤ 5
          · have hd : (f :: rest).drop 5 = [] := List.drop_eq_nil_of_le h5
            have ht : (f :: rest).take 5 = f :: rest := List.take_of_length_le h5
            rw [hd, ht]
            simp [mapWithIdxFrom]
          · push_neg at h5
            have hlen : ((f :: rest).take 5).length = 5 := by
              simp only [List.length_take]
              omega
            conv_rhs => rw [← List.take_append_drop 5 (f :: rest)]
            rw [mapWithIdxFrom_append, hlen]


/-- Length is preserved by the position-indexed map. -/
theorem length_mapWithIdxFrom (en : Nat → RawFinding → Finding) :
    ∀ (l : List RawFinding) (i : Nat), (mapWithIdxFrom en i l).length = l.length := by
  intro l
  induction l with
  | nil => intro i; rfl
  | cons f rest ih => intro i; simp [mapWithIdxFrom, ih]

/-- Element `j` of the position-indexed map is the enrichment of element `j`
at global position `i + j`. -/
theorem get_mapWithIdxFrom (en : Nat → RawFinding → Finding) :
    ∀ (l : List RawFinding) (i j : Nat) (h : j < (mapWithIdxFrom en i l).length)
      (h' : j < l.length),
      (mapWithIdxFrom en i l).get ⟨j, h⟩ = en (i + j) (l.get ⟨j, h'⟩) := by
  intro l
  induction l with
  | nil => intro i j h h'; exact absurd h' (by simp)
  | cons f rest ih =>
      intro i j h h'
      cases j with
      | zero => simp [mapWithIdxFrom]
      | succ j =>
          have hr : j < rest.length := by
            simpa using Nat.lt_of_succ_lt_succ h'
          have hm : j < (mapWithIdxFrom en (i + 1) rest).length := by
            rw [length_mapWithIdxFrom]; exact hr
          simp only [mapWithIdxFrom, List.get_cons_succ]
          rw [ih (i + 1) j hm hr]
          have harith : i + 1 + j = i + (j + 1) := by omega
          rw [harith]

/-- A failing enrichment call produces exactly the fallback finding. -/
theorem enrichOne_fallback (genT : RawFinding → Option Timeline)
    (genE genF : RawFinding → Option String) (idv : String) (f : RawFinding)
    (h : enrichFails genT genE genF f) :
    enrichOne genT genE genF idv f = fallbackFinding idv f := by
  cases hT : genT f <;> cases hE : genE f <;> cases hF : genF f <;>
    simp_all [enrichOne, enrichFails]

/-- A successful enrichment call produces the success-path severity and
minutesSaved. -/
theorem enrichOne_success (genT : RawFinding → Option Timeline)
    (genE genF : RawFinding → Option String) (idv : String) (f : RawFinding)
    (timeline : Timeline) (explanation fix : String)
    (hT : genT f = some timeline) (hE : genE f = some explanation)
    (hF : genF f = some fix) :
    (enrichOne genT genE genF idv f).severity = calculateSeverity f.ruleId ∧
    (enrichOne genT genE genF idv f).minutesSaved =
      calculateMinutesSaved (calculateSeverity f.ruleId) (calculateETA f.ruleId f.snippet) := by
  simp [enrichOne, hT, hE, hF]

/-! ## Sample data used by witnesses -/

/-- Sample repository metadata. -/
def sampleMeta : RepoMetadata where
  languages := ["TypeScript"]
  frameworks := ["Next.js"]
  totalFiles := 12
  totalLines := 3400

/-- Sample raw finding whose enrichment will succeed. -/
def sampleRaw1 : RawFinding where
  ruleId := "hardcoded-secrets"
  category := Category.security
  file := "src/config.ts"
  line := 10
  snippet := "const key = 1"

/-- Sample raw finding whose enrichment will fail. -/
def sampleRaw2 : RawFinding where
  ruleId := "empty-catch"
  category := Category.reliability
  file := "src/app.ts"
  line := 42
  snippet := "try fetch catch ignored"

/-- Sample enrichment timeline. -/
def sampleTimeline : Timeline where
  t3m := "three"
  t6m := "six"
  t1y := "one year"
  t2y := "two years"

/-- Sample timeline generator: rejects for `empty-catch`. -/
def sampleGenT : RawFinding → Option Timeline :=
  fun f => if f.ruleId = "empty-catch" then none else some sampleTimeline

/-- Sample explanation generator: rejects for `empty-catch`. -/
def sampleGenE : RawFinding → Option String :=
  fun f => if f.ruleId = "empty-catch" then none else some "Secrets in code. Rotate them."

/-- Sample fix generator: always succeeds. -/
def sampleGenF : RawFinding → Option String := fun _ => some "use env vars"

/-- Sample id supply for enrichment. -/
def sampleIds : Nat → String := fun n => "id-" ++ toString n

/-- Sample in-flight agent state entering the Explain phase. -/
def sampleExplainState : AgentState where
  scanId := "scan-1"
  repoUrl := "https://github.com/acme/app"
  repoMetadata := some sampleMeta
  findings := [sampleRaw1, sampleRaw2]
  enrichedFindings := []
  logs := []
  error := none

/-- Sample running state for the merge-semantics witness. -/
def sampleState : AgentState where
  scanId := "scan-1"
  repoUrl := "https://github.com/acme/app"
  repoMetadata := none
  findings := []
  enrichedFindings := []
  logs := [{ timestamp := 1, phase := Phase.plan, message := "first" }]
  error := none

/-- Sample partial node output for the merge-semantics witness. -/
def sampleUpdate : AgentUpdate where
  findings := some [sampleRaw1]
  logs := some [{ timestamp := 2, phase := Phase.hunt, message := "second" }]
  error := some "boom"

/-- Sample stored scan record. -/
def sampleRecordA : ScanResult where
  id := "scan-1"
  repoUrl := "https://github.com/acme/app"
  status := ScanStatus.scanning
  findings := []
  stats := zeroStats
  logs := []
  createdAt := 0

/-- A different record carrying the same id as `sampleRecordA`. -/
def sampleRecordB : ScanResult :=
  { sampleRecordA with repoUrl := "https://github.com/other/repo" }

/-! ## Claim theorems -/

/-- C1: merging a phase's partial update into the running state appends the
update's logs after the previous logs and, for every other field
(`repoMetadata`, `findings`, `enrichedFindings`, `error`), takes the update's
value when it supplies one and keeps the previous value when it is absent;
the stream-loop merge of `runAgent` agrees with the channel reducers. -/
theorem mergeState_append_replace (x : AgentState) (y : AgentUpdate) :
    runAgentMergeStep x y = mergeState x y ∧
    (mergeState x y).logs = x.logs ++ y.logs.getD [] ∧
    (∀ m, y.repoMetadata = some m → (mergeState x y).repoMetadata = some m) ∧
    (y.repoMetadata = none → (mergeState x y).repoMetadata = x.repoMetadata) ∧
    (∀ v, y.findings = some v → (mergeState x y).findings = v) ∧
    (y.findings = none → (mergeState x y).findings = x.findings) ∧
    (∀ v, y.enrichedFindings = some v → (mergeState x y).enrichedFindings = v) ∧
    (y.enrichedFindings = none → (mergeState x y).enrichedFindings = x.enrichedFindings) ∧
    (∀ e, y.error = some e → (mergeState x y).error = some e) ∧
    (y.error = none → (mergeState x y).error = x.error) := by
  refine ⟨rfl, rfl, ?_, ?_, ?_, ?_, ?_, ?_, ?_, ?_⟩
  · intro m h; simp [mergeState, h]
  · intro h; simp [mergeState, h]
  · intro v h; simp [mergeState, h]
  · intro h; simp [mergeState, h]
  · intro v h; simp [mergeState, h]
  · intro h; simp [mergeState, h]
  · intro e h; simp [mergeState, h]
  · intro h; simp [mergeState, h]

/-- Witness for C1 at a concrete state and update. -/
theorem mergeState_append_replace_witness :
    (mergeState sampleState sampleUpdate).logs =
      [{ timestamp := 1, phase := Phase.plan, message := "first" },
       { timestamp := 2, phase := Phase.hunt, message := "second" }] ∧
    (mergeState sampleState sampleUpdate).findings = [sampleRaw1] ∧
    (mergeState sampleState sampleUpdate).error = some "boom" ∧
    (mergeState sampleState sampleUpdate).repoMetadata = none := by
  obtain ⟨-, hlogs, -, hmeta, hf, -, -, -, herr, -⟩ :=
    mergeState_append_replace sampleState sampleUpdate
  exact ⟨hlogs, hf [sampleRaw1] rfl, herr "boom" rfl, hmeta rfl⟩

/-- C10: `calculateMinutesSaved` ignores its `eta` argument entirely and
returns the severity's triage time plus 2 (17, 14, 9 and 5 for critical,
high, medium and low), so no successfully enriched finding can carry the
enrichment-failure fallback value 10. -/
theorem minutesSaved_ignores_eta :
    (∀ severity e1 e2,
       calculateMinutesSaved severity e1 = calculateMinutesSaved severity e2) ∧
    (∀ e, calculateMinutesSaved Severity.critical e = 17 ∧
          calculateMinutesSaved Severity.high e = 14 ∧
          calculateMinutesSaved Severity.medium e = 9 ∧
          calculateMinutesSaved Severity.low e = 5) ∧
    (∀ severity e, calculateMinutesSaved severity e ≠ 10) ∧
    (∀ genT genE genF idv f timeline explanation fix,
       genT f = some timeline → genE f = some explanation → genF f = some fix →
       (enrichOne genT genE genF idv f).minutesSaved ≠ 10) := by
  refine ⟨?_, ?_, ?_, ?_⟩
  · intro severity e1 e2; rfl
  · intro e; exact ⟨rfl, rfl, rfl, rfl⟩
  · intro severity e
    cases severity <;> simp [calculateMinutesSaved, triageTime, documentationTime]
  · intro genT genE genF idv f timeline explanation fix hT hE hF
    have h := (enrichOne_success genT genE genF idv f timeline explanation fix hT hE hF).2
    rw [h]
    cases hs : calculateSeverity f.ruleId <;>
      simp [calculateMinutesSaved, triageTime, documentationTime]

/-- Witness for C10 at concrete severities and a concrete enrichment. -/
theorem minutesSaved_ignores_eta_witness :
    calculateMinutesSaved Severity.critical ETA.easy = 17 ∧
    calculateMinutesSaved Severity.low ETA.large ≠ 10 ∧
    (enrichOne sampleGenT sampleGenE sampleGenF "id-0" sampleRaw1).minutesSaved ≠ 10 := by
  obtain ⟨-, htable, hne, hsucc⟩ := minutesSaved_ignores_eta
  exact ⟨(htable ETA.easy).1, hne Severity.low ETA.large,
    hsucc sampleGenT sampleGenE sampleGenF "id-0" sampleRaw1 sampleTimeline
      "Secrets in code. Rotate them." "use env vars" rfl rfl rfl⟩

/-- C8: the severity attached to an enriched finding is a pure, total
function of its `ruleId` alone — on both the success path and the fallback
path it equals `calculateSeverity ruleId`, so two findings with the same
`ruleId` always receive the same severity, drawn from the four levels,
regardless of file, snippet, generators or id. -/
theorem severity_pure_function_of_ruleId :
    (∀ genT genE genF idv f,
       (enrichOne genT genE genF idv f).severity = calculateSeverity f.ruleId) ∧
    (∀ gT1 gE1 gF1 id1 f1 gT2 gE2 gF2 id2 (f2 : RawFinding), f1.ruleId = f2.ruleId →
       (enrichOne gT1 gE1 gF1 id1 f1).severity = (enrichOne gT2 gE2 gF2 id2 f2).severity) ∧
    (∀ ruleId, calculateSeverity ruleId = Severity.critical ∨
       calculateSeverity ruleId = Severity.high ∨
       calculateSeverity ruleId = Severity.medium ∨
       calculateSeverity ruleId = Severity.low) := by
  have hpure : ∀ genT genE genF idv f,
      (enrichOne genT genE genF idv f).severity = calculateSeverity f.ruleId := by
    intro genT genE genF idv f
    cases hT : genT f <;> cases hE : genE f <;> cases hF : genF f <;>
      simp [enrichOne, fallbackFinding, hT, hE, hF]
  refine ⟨hpure, ?_, ?_⟩
  · intro gT1 gE1 gF1 id1 f1 gT2 gE2 gF2 id2 f2 hrule
    rw [hpure, hpure, hrule]
  · intro ruleId
    cases h : calculateSeverity ruleId
    · exact Or.inl rfl
    · exact Or.inr (Or.inl rfl)
    · exact Or.inr (Or.inr (Or.inl rfl))
    · exact Or.inr (Or.inr (Or.inr rfl))

/-- Witness for C8: same ruleId, different file, snippet, generators and id,
same severity. -/
theorem severity_pure_function_of_ruleId_witness :
    (enrichOne sampleGenT sampleGenE sampleGenF "id-0" sampleRaw2).severity =
      (enrichOne (fun _ => some sampleTimeline) (fun _ => some "other. text")
        (fun _ => some "fix idea") "id-9"
        { ruleId := "empty-catch", category := Category.reliability,
          file := "lib/other.ts", line := 7, snippet := "different snippet" }).severity :=
  (severity_pure_function_of_ruleId).2.1 sampleGenT sampleGenE sampleGenF "id-0"
    sampleRaw2 _ _ _ "id-9" _ rfl

/-- C7: every corrupt on-disk store content — missing file, invalid JSON, or
a JSON value that is not a plain object (null, array or scalar) — is
self-healed: the locked read returns the empty record map and rewrites the
persisted file to the empty store, never propagating the corruption. -/
theorem corrupt_disk_selfheals (d : DiskState) (h : diskCorrupt d) :
    readRealScansFromDisk d = (Json.obj [], DiskState.json (Json.obj [])) := by
  cases d with
  | missing => rfl
  | invalid raw => rfl
  | json v =>
      have hv : isPlainObject v = false := h
      simp [readRealScansFromDisk, parseDisk, hv]

/-- Witness for C7 at the concrete corrupt content `null`. -/
theorem corrupt_disk_selfheals_witness :
    diskCorrupt (DiskState.json Json.null) ∧
    readRealScansFromDisk (DiskState.json Json.null) =
      (Json.obj [], DiskState.json (Json.obj [])) :=
  ⟨rfl, corrupt_disk_selfheals (DiskState.json Json.null) rfl⟩

/-- C5 counterexample: `saveScan` of a record whose id already exists in the
store does not fail — it succeeds and replaces the stored record. -/
theorem saveScan_duplicate_id_counterexample :
    lookupScan (saveScan sampleRecordB [("scan-1", sampleRecordA)]) "scan-1" =
      some sampleRecordB ∧
    sampleRecordB ≠ sampleRecordA := by
  constructor
  · rfl
  · decide

/-- C5 (amended): `saveScan` never fails on a duplicate id: for a non-demo
id it stores the record, silently overwriting any record already present
under that id; records with a `demo-` id are never written at all. -/
theorem saveScan_overwrites :
    (∀ (store : ScanStore) (r : ScanResult), strStartsWith r.id "demo-" = false →
       lookupScan (saveScan r store) r.id = some r) ∧
    (∀ (store : ScanStore) (r : ScanResult), strStartsWith r.id "demo-" = true →
       saveScan r store = store) := by
  constructor
  · intro store r h
    simp [saveScan, h, lookupScan_setScan_self]
  · intro store r h
    simp [saveScan, h]

/-- Witness for C5 (amended) at a concrete duplicate save. -/
theorem saveScan_overwrites_witness :
    lookupScan (saveScan sampleRecordB [("scan-1", sampleRecordA)]) "scan-1" =
      some sampleRecordB :=
  (saveScan_overwrites).1 [("scan-1", sampleRecordA)] sampleRecordB rfl

/-- C6 counterexample: `updateScan` on an id that is absent from the store
does not always fail with NotFound — a `demo-` prefixed id is silently
accepted as a no-op success even though no record with that id exists. -/
theorem updateScan_demo_counterexample :
    lookupScan ([] : ScanStore) "demo-missing" = none ∧
    updateScan "demo-missing" {} ([] : ScanStore) = Except.ok ([] : ScanStore) :=
  ⟨rfl, rfl⟩

/-- C6 (amended): for every id not starting with `demo-`, `updateScan` fails
with the NotFound error when the id is absent, and otherwise stores the
previous record shallow-merged with the given fields — each supplied
top-level field replaced, every other field retained; ids starting with
`demo-` are silently ignored (success without modifying the store). -/
theorem updateScan_notfound_or_shallow_merge :
    (∀ (id : String) (u : ScanUpdate) (store : ScanStore),
       strStartsWith id "demo-" = false →
       (lookupScan store id = none →
          updateScan id u store = Except.error ("Scan " ++ id ++ " not found")) ∧
       (∀ r, lookupScan store id = some r →
          updateScan id u store =
            Except.ok (setScan store id (mergeScanRecord r u)) ∧
          lookupScan (setScan store id (mergeScanRecord r u)) id =
            some (mergeScanRecord r u) ∧
          (mergeScanRecord r u).status = u.status.getD r.status ∧
          (mergeScanRecord r u).findings = u.findings.getD r.findings ∧
          (mergeScanRecord r u).stats = u.stats.getD r.stats ∧
          (mergeScanRecord r u).logs = u.logs.getD r.logs ∧
          (mergeScanRecord r u).repoUrl = u.repoUrl.getD r.repoUrl ∧
          (mergeScanRecord r u).createdAt = u.createdAt.getD r.createdAt)) ∧
    (∀ (id : String) (u : ScanUpdate) (store : ScanStore),
       strStartsWith id "demo-" = true → updateScan id u store = Except.ok store) := by
  constructor
  · intro id u store hid
    constructor
    · intro habs
      simp [updateScan, hid, habs]
    · intro r hr
      refine ⟨by simp [updateScan, hid, hr], lookupScan_setScan_self store id _,
        rfl, rfl, rfl, rfl, rfl, rfl⟩
  · intro id u store hid
    simp [updateScan, hid]

/-- Witness for C6 (amended): NotFound on an absent non-demo id, and a
shallow merge on a present one. -/
theorem updateScan_notfound_or_shallow_merge_witness :
    updateScan "scan-9" {} ([] : ScanStore) =
      Except.error ("Scan " ++ "scan-9" ++ " not found") ∧
    updateScan "scan-1" { status := some ScanStatus.failed }
        [("scan-1", sampleRecordA)] =
      Except.ok (setScan [("scan-1", sampleRecordA)] "scan-1"
        (mergeScanRecord sampleRecordA { status := some ScanStatus.failed })) := by
  obtain ⟨habs, -⟩ :=
    (updateScan_notfound_or_shallow_merge).1 "scan-9" {} ([] : ScanStore) rfl
  obtain ⟨-, hpres⟩ :=
    (updateScan_notfound_or_shallow_merge).1 "scan-1"
      { status := some ScanStatus.failed } [("scan-1", sampleRecordA)] rfl
  exact ⟨habs rfl, (hpres sampleRecordA rfl).1⟩

/-- When the guard passes, `explainNode` returns no error and returns the
batched enrichment of the findings. -/
theorem explainNode_not_skipped (now : Nat) (genT : RawFinding → Option Timeline)
    (genE genF : RawFinding → Option String) (ids : Nat → String) (st : AgentState)
    (h1 : st.error = none) (h2 : st.findings.isEmpty = false) :
    (explainNode now genT genE genF ids st).error = none ∧
    (explainNode now genT genE genF ids st).enrichedFindings =
      some (enrichChunks (fun i f => enrichOne genT genE genF (ids i) f) 0 st.findings) := by
  constructor <;> simp [explainNode, h1, h2]

/-- C4: if the enrichment call throws for exactly one of the N findings
entering the Explain phase, the phase still outputs N enriched findings
(none dropped), leaves `error` unset, and the failing item carries exactly
the defined fallback shape — dash-to-space title with the file name,
fallback explanation, fix and timeline, eta `medium`, `minutesSaved` 10 —
while its ruleId, category, file, line, snippet and computed severity are
preserved. -/
theorem explain_isolates_single_failure
    (genT : RawFinding → Option Timeline) (genE genF : RawFinding → Option String)
    (ids : Nat → String) (now : Nat) (st : AgentState) (j : Nat)
    (hj : j < st.findings.length)
    (herr : st.error = none)
    (hfail : enrichFails genT genE genF (st.findings.get ⟨j, hj⟩))
    (_hothers : ∀ k (hk : k < st.findings.length), k ≠ j →
        ¬ enrichFails genT genE genF (st.findings.get ⟨k, hk⟩)) :
    (explainNode now genT genE genF ids st).error = none ∧
    ∃ out, (explainNode now genT genE genF ids st).enrichedFindings = some out ∧
      out.length = st.findings.length ∧
      ∃ hj2 : j < out.length,
        out.get ⟨j, hj2⟩ = fallbackFinding (ids j) (st.findings.get ⟨j, hj⟩) ∧
        (out.get ⟨j, hj2⟩).title =
          dashToSpace (st.findings.get ⟨j, hj⟩).ruleId ++ " in " ++
            (st.findings.get ⟨j, hj⟩).file ∧
        (out.get ⟨j, hj2⟩).explanation = "Unable to generate explanation" ∧
        (out.get ⟨j, hj2⟩).fix = "// Fix could not be generated" ∧
        (out.get ⟨j, hj2⟩).timeline =
          { t3m := "Issue detected", t6m := "Problem persists",
            t1y := "Refactor needed", t2y := "Technical debt grows" } ∧
        (out.get ⟨j, hj2⟩).eta = ETA.medium ∧
        (out.get ⟨j, hj2⟩).minutesSaved = 10 ∧
        (out.get ⟨j, hj2⟩).ruleId = (st.findings.get ⟨j, hj⟩).ruleId ∧
        (out.get ⟨j, hj2⟩).category = (st.findings.get ⟨j, hj⟩).category ∧
        (out.get ⟨j, hj2⟩).file = (st.findings.get ⟨j, hj⟩).file ∧
        (out.get ⟨j, hj2⟩).line = (st.findings.get ⟨j, hj⟩).line ∧
        (out.get ⟨j, hj2⟩).snippet = (st.findings.get ⟨j, hj⟩).snippet ∧
        (out.get ⟨j, hj2⟩).severity = calculateSeverity (st.findings.get ⟨j, hj⟩).ruleId := by
  have hne : st.findings.isEmpty = false := by
    cases hfs : st.findings with
    | nil => rw [hfs] at hj; exact absurd hj (by simp)
    | cons a l => simp
  obtain ⟨h1, h2⟩ := explainNode_not_skipped now genT genE genF ids st herr hne
  have heq := enrichChunks_eq_mapWithIdxFrom
    (fun i f => enrichOne genT genE genF (ids i) f) st.findings.length st.findings
    (le_refl _) 0
  rw [heq] at h2
  have hlen : (mapWithIdxFrom (fun i f => enrichOne genT genE genF (ids i) f)
      0 st.findings).length = st.findings.length :=
    length_mapWithIdxFrom _ st.findings 0
  have hj2 : j < (mapWithIdxFrom (fun i f => enrichOne genT genE genF (ids i) f)
      0 st.findings).length := by rw [hlen]; exact hj
  have hget : (mapWithIdxFrom (fun i f => enrichOne genT genE genF (ids i) f)
      0 st.findings).get ⟨j, hj2⟩ =
      enrichOne genT genE genF (ids j) (st.findings.get ⟨j, hj⟩) := by
    rw [get_mapWithIdxFrom _ st.findings 0 j hj2 hj]
    simp
  refine ⟨h1, _, h2, hlen, hj2, ?_⟩
  rw [hget, enrichOne_fallback genT genE genF (ids j) _ hfail]
  exact ⟨rfl, rfl, rfl, rfl, rfl, rfl, rfl, rfl, rfl, rfl, rfl, rfl, rfl⟩

/-- Witness for C4: two concrete findings, the second one's enrichment
rejects, the output keeps both and the failing one gets the fallback. -/
theorem explain_isolates_single_failure_witness :
    (explainNode 7 sampleGenT sampleGenE sampleGenF sampleIds sampleExplainState).error = none ∧
    ∃ out, (explainNode 7 sampleGenT sampleGenE sampleGenF sampleIds
        sampleExplainState).enrichedFindings = some out ∧
      out.length = 2 := by
  have h := explain_isolates_single_failure sampleGenT sampleGenE sampleGenF sampleIds 7
    sampleExplainState 1 (by decide) rfl (by decide)
    (by
      intro k hk hkj
      have hk2 : k < 2 := by simpa [sampleExplainState] using hk
      interval_cases k
      · exact (by decide : ¬ enrichFails sampleGenT sampleGenE sampleGenF sampleRaw1)
      · exact absurd rfl hkj)
  obtain ⟨h1, out, h2, h3, -⟩ := h
  exact ⟨h1, out, h2, h3⟩

/-- A plan-phase failure leaves the final agent state with the error set and
with no findings, enriched findings or repository metadata. -/
theorem runAgent_plan_failure (env : PipelineEnv) (scanId repoUrl msg : String)
    (henv : env.metadataRes = Except.error msg) :
    (runAgent env scanId repoUrl).error = some msg ∧
    (runAgent env scanId repoUrl).findings = [] ∧
    (runAgent env scanId repoUrl).enrichedFindings = [] ∧
    (runAgent env scanId repoUrl).repoMetadata = none := by
  refine ⟨?_, ?_, ?_, ?_⟩ <;>
    simp [runAgent, planNode, henv, mergeState, initialAgentState]

/-- C3: once a phase has set `error`, every later phase is a no-op returning
the empty update; in particular a Plan failure yields a final agent state
with no findings, enriched findings or metadata, intermediate write-throughs
never touch the record's `findings`/`stats`/`status`, and the terminal store
write of the background runner leaves a failed record whose findings are
empty and whose stats hold no detected counts. -/
theorem error_short_circuits_pipeline :
    (∀ (now : Nat) (env : HuntEnv) (st : AgentState), st.error.isSome = true →
       huntNode now env st = {}) ∧
    (∀ (now : Nat) (genT : RawFinding → Option Timeline)
       (genE genF : RawFinding → Option String) (ids : Nat → String)
       (st : AgentState), st.error.isSome = true →
       explainNode now genT genE genF ids st = {}) ∧
    (∀ (now : Nat) (st : AgentState), st.error.isSome = true →
       writeNode now st = {}) ∧
    (∀ (env : PipelineEnv) (scanId repoUrl msg : String),
       env.metadataRes = Except.error msg →
       (runAgent env scanId repoUrl).error = some msg ∧
       (runAgent env scanId repoUrl).findings = [] ∧
       (runAgent env scanId repoUrl).enrichedFindings = [] ∧
       (runAgent env scanId repoUrl).repoMetadata = none) ∧
    (∀ (demo store : ScanStore) (scanId : String) (entry : LogEntry)
       (id2 : String) (r : ScanResult),
       lookupScan store id2 = some r →
       ∃ r', lookupScan (saveLogImmediately demo store scanId entry) id2 = some r' ∧
         r'.findings = r.findings ∧ r'.stats = r.stats ∧ r'.status = r.status) ∧
    (∀ (env : PipelineEnv) (scanId repoUrl msg : String) (store : ScanStore)
       (r : ScanResult),
       env.metadataRes = Except.error msg →
       strStartsWith scanId "demo-" = false →
       lookupScan store scanId = some r →
       r.findings = [] → r.stats = zeroStats →
       ∃ store', runAgentInBackgroundFinal store scanId (runAgent env scanId repoUrl) =
           Except.ok store' ∧
         ∃ r', lookupScan store' scanId = some r' ∧
           r'.status = ScanStatus.failed ∧ r'.findings = [] ∧ r'.stats = zeroStats) := by
  refine ⟨?_, ?_, ?_, ?_, ?_, ?_⟩
  · intro now env st h
    simp [huntNode, h]
  · intro now genT genE genF ids st h
    simp [explainNode, h]
  · intro now st h
    simp [writeNode, h]
  · intro env scanId repoUrl msg henv
    exact runAgent_plan_failure env scanId repoUrl msg henv
  · intro demo store scanId entry id2 r hr
    cases hg : getScanStore demo store scanId with
    | none =>
        refine ⟨r, ?_, rfl, rfl, rfl⟩
        simp [saveLogImmediately, hg, hr]
    | some scan =>
        by_cases hd : strStartsWith scanId "demo-" = true
        · refine ⟨r, ?_, rfl, rfl, rfl⟩
          simp [saveLogImmediately, hg, updateScan, hd, hr]
        · have hd' : strStartsWith scanId "demo-" = false :=
            Bool.not_eq_true _ ▸ eq_false_of_ne_true hd
          cases hl : lookupScan store scanId with
          | none =>
              refine ⟨r, ?_, rfl, rfl, rfl⟩
              simp [saveLogImmediately, hg, updateScan, hd', hl, hr]
          | some r0 =>
              have hred : saveLogImmediately demo store scanId entry =
                  setScan store scanId
                    (mergeScanRecord r0 { logs := some (scan.logs ++ [entry]) }) := by
                simp [saveLogImmediately, hg, updateScan, hd', hl]
              rw [hred]
              by_cases hid : id2 = scanId
              · subst hid
                have hrr : r0 = r := Option.some.inj (hl.symm.trans hr)
                subst hrr
                exact ⟨mergeScanRecord r0 { logs := some (scan.logs ++ [entry]) },
                  lookupScan_setScan_self store id2 _, rfl, rfl, rfl⟩
              · refine ⟨r, ?_, rfl, rfl, rfl⟩
                rw [lookupScan_setScan_ne store scanId id2 _ hid]
                exact hr
  · intro env scanId repoUrl msg store r henv hd hr hfind hstats
    obtain ⟨he, -, -, -⟩ := runAgent_plan_failure env scanId repoUrl msg henv
    have hred : runAgentInBackgroundFinal store scanId (runAgent env scanId repoUrl) =
        updateScan scanId
          { status := some ScanStatus.failed,
            logs := some (runAgent env scanId repoUrl).logs } store := by
      simp [runAgentInBackgroundFinal, he]
    have hupd : updateScan scanId
        { status := some ScanStatus.failed,
          logs := some (runAgent env scanId repoUrl).logs } store =
        Except.ok (setScan store scanId (mergeScanRecord r
          { status := some ScanStatus.failed,
            logs := some (runAgent env scanId repoUrl).logs })) := by
      simp [updateScan, hd, hr]
    rw [hred, hupd]
    refine ⟨_, rfl, mergeScanRecord r
      { status := some ScanStatus.failed,
        logs := some (runAgent env scanId repoUrl).logs },
      lookupScan_setScan_self store scanId _, rfl, hfind, hstats⟩

/-- Sample hunt environment (default pattern mode, empty results). -/
def sampleHuntEnv : HuntEnv where
  mode := "false"
  greptileCbLogs := []
  greptileRes := Except.ok []
  hybridCbLogs := []
  hybridRes := Except.ok []
  patternRes := Except.ok []

/-- Sample pipeline environment whose metadata call fails. -/
def failEnv : PipelineEnv where
  now := 3
  metadataRes := Except.error "boom"
  hunt := sampleHuntEnv
  genT := sampleGenT
  genE := sampleGenE
  genF := sampleGenF
  ids := sampleIds

/-- Sample agent state with the error flag already set. -/
def errState : AgentState :=
  { initialAgentState "scan-1" "https://github.com/acme/app" with error := some "boom" }

/-- Sample store holding only the freshly created scan record. -/
def sampleStore : ScanStore :=
  [("scan-1", initialScanRecord "scan-1" "https://github.com/acme/app" 0)]

/-- Witness for C3 at a concrete failing plan phase. -/
theorem error_short_circuits_pipeline_witness :
    huntNode 3 sampleHuntEnv errState = {} ∧
    writeNode 3 errState = {} ∧
    (runAgent failEnv "scan-1" "https://github.com/acme/app").findings = [] ∧
    ∃ store', runAgentInBackgroundFinal sampleStore "scan-1"
        (runAgent failEnv "scan-1" "https://github.com/acme/app") = Except.ok store' ∧
      ∃ r', lookupScan store' "scan-1" = some r' ∧
        r'.status = ScanStatus.failed ∧ r'.findings = [] ∧ r'.stats = zeroStats := by
  obtain ⟨hh, -, hw, hrun, -, hbg⟩ := error_short_circuits_pipeline
  refine ⟨hh 3 sampleHuntEnv errState rfl, hw 3 errState rfl,
    (hrun failEnv "scan-1" "https://github.com/acme/app" "boom" rfl).2.1, ?_⟩
  exact hbg failEnv "scan-1" "https://github.com/acme/app" "boom" sampleStore
    (initialScanRecord "scan-1" "https://github.com/acme/app" 0) rfl rfl rfl rfl rfl

/-! ## Concrete run trace for the log-prefix analysis -/

/-- The repository URL of the traced run. -/
def c2Url : String := "https://github.com/acme/app"

/-- The write-through copy of the first plan log entry, saved to the store by
`saveLogImmediately` while the plan phase runs. -/
def c2PlanWriteThrough : LogEntry where
  timestamp := 1
  phase := Phase.plan
  message := "Initializing agent..."

/-- The in-memory copy of the same plan log entry inside the node's returned
update (a separate object with its own `Date.now()` timestamp). -/
def c2PlanInMemory : LogEntry where
  timestamp := 2
  phase := Phase.plan
  message := "Initializing agent..."

/-- The pipeline's final in-memory state for the traced run: it completed,
and its `logs` hold only the entries accumulated by the stream loop — the
initial record's queued entry was never part of the in-memory state. -/
def c2Result : AgentState where
  scanId := "scan-1"
  repoUrl := c2Url
  repoMetadata := none
  findings := []
  enrichedFindings := []
  logs := [c2PlanInMemory]
  error := none

/-- The store right after the submit handler created the initial record. -/
def c2Store0 : ScanStore := saveScan (initialScanRecord "scan-1" c2Url 0) []

/-- The store after the plan phase's write-through appended its log entry. -/
def c2Store1 : ScanStore :=
  saveLogImmediately [] c2Store0 "scan-1" c2PlanWriteThrough

/-- The record any consumer observes while the pipeline runs: the queued
entry followed by the write-through entry. -/
def c2ObservedRecord : ScanResult :=
  { initialScanRecord "scan-1" c2Url 0 with
      logs := [queuedLogEntry 0, c2PlanWriteThrough] }

/-- C2: evaluation of the code at the failing input.  While the pipeline
runs, the record observed in the store holds the queued entry plus the
write-through entry; the terminal write of `runAgentInBackground` then
replaces the record's `logs` with the pipeline's in-memory list, so the
final record lost the queued entry (and the write-through copy), and the
earlier observed log sequence is not a prefix of the final one. -/
theorem final_write_drops_queued_log :
    lookupScan c2Store1 "scan-1" = some c2ObservedRecord ∧
    ∃ store2, runAgentInBackgroundFinal c2Store1 "scan-1" c2Result = Except.ok store2 ∧
      ∃ rFin, lookupScan store2 "scan-1" = some rFin ∧
        rFin.logs = [c2PlanInMemory] ∧
        logsArePrefix c2ObservedRecord.logs rFin.logs = false ∧
        queuedLogEntry 0 ∈ c2ObservedRecord.logs ∧
        queuedLogEntry 0 ∉ rFin.logs ∧
        ¬ (∃ t, c2ObservedRecord.logs ++ t = rFin.logs) := by
  refine ⟨by decide, _, rfl, _, rfl, by decide, by decide, by decide, by decide, ?_⟩
  intro h
  rw [← logsArePrefix_iff] at h
  exact absurd h (by decide)

/-- A log entry appended to the store after a subscription begins. -/
def streamEntry : LogEntry where
  timestamp := 9
  phase := Phase.hunt
  message := "Agent: Hunting for issues..."

/-- C9 counterexample: a subscriber whose scan already has one persisted log
entry, and to which nothing is appended afterwards, still receives that
historical entry as a stream event — the route starts with
`lastLogCount = 0`, so the first poll replays all history, while the claim
predicts no log event at all. -/
theorem stream_replays_history_counterexample :
    streamLogEvents [[queuedLogEntry 0]] = [queuedLogEntry 0] ∧
    ([queuedLogEntry 0] : List LogEntry) ≠ [] := by
  constructor
  · rfl
  · decide

/-- Every poll forwards exactly the suffix past `lastLogCount`, so over an
append-only snapshot sequence the events delivered are the full last
snapshot. -/
theorem streamLogEventsFrom_appendOnly :
    ∀ (rest : List (List LogEntry)) (l : List LogEntry),
      appendOnly (l :: rest) →
      l ++ streamLogEventsFrom l.length rest = (l :: rest).getLastD [] := by
  intro rest
  induction rest with
  | nil =>
      intro l _
      simp [streamLogEventsFrom, List.getLastD]
  | cons s rest' ih =>
      intro l h
      obtain ⟨⟨t, ht⟩, h2⟩ := h
      have hgo : streamLogEventsFrom l.length (s :: rest') =
          (pollEmitLogs l.length s).1 ++
            streamLogEventsFrom (pollEmitLogs l.length s).2 rest' := rfl
      by_cases hlt : l.length < s.length
      · have hemit : pollEmitLogs l.length s = (s.drop l.length, s.length) := by
          simp [pollEmitLogs, hlt]
        rw [hgo, hemit]
        have hls : l ++ s.drop l.length = s := by
          subst ht
          rw [List.drop_left]
        rw [← List.append_assoc, hls, ih s h2]
        simp [List.getLastD]
      · have hle : s.length ≤ l.length := Nat.le_of_not_lt hlt
        have hts : t = [] := by
          have hlen := congrArg List.length ht
          simp only [List.length_append] at hlen
          have : t.length = 0 := by omega
          exact List.length_eq_zero.mp this
        subst hts
        rw [List.append_nil] at ht
        subst ht
        have hemit : pollEmitLogs l.length l = ([], l.length) := by
          simp [pollEmitLogs]
        rw [hgo, hemit]
        simp only [List.nil_append]
        rw [ih l h2]
        simp [List.getLastD]

/-- C9 (amended): the log events delivered to a subscriber are exactly the
scan's full persisted log sequence from its beginning — the first poll
replays every entry already persisted before subscription, and each entry
appended afterwards is delivered exactly once, in order, so over an
append-only snapshot sequence the delivered events equal the last observed
snapshot. -/
theorem stream_delivers_full_log_sequence (snapshots : List (List LogEntry))
    (h : appendOnly snapshots) :
    streamLogEvents snapshots = snapshots.getLastD [] := by
  cases snapshots with
  | nil => rfl
  | cons l rest =>
      have hcons : streamLogEvents (l :: rest) =
          l ++ streamLogEventsFrom l.length rest := by
        by_cases h0 : 0 < l.length
        · simp [streamLogEvents, streamLogEventsFrom, pollEmitLogs, h0]
        · have hl : l = [] :=
            List.length_eq_zero.mp (Nat.eq_zero_of_not_pos h0)
          subst hl
          simp [streamLogEvents, streamLogEventsFrom, pollEmitLogs]
      rw [hcons, streamLogEventsFrom_appendOnly rest l h]

/-- Witness for C9 (amended): one pre-subscription entry, one appended
afterwards; the subscriber receives both, in order. -/
theorem stream_delivers_full_log_sequence_witness :
    streamLogEvents [[queuedLogEntry 0], [queuedLogEntry 0, streamEntry]] =
      [queuedLogEntry 0, streamEntry] :=
  stream_delivers_full_log_sequence
    [[queuedLogEntry 0], [queuedLogEntry 0, streamEntry]]
    ⟨⟨[streamEntry], rfl⟩, trivial⟩

end LegacyLens
